import Mathlib

/-!
# Verification of the nus-aircon-checker resilient API access layer

Shallow embedding, in Lean 4, of the core data operations of the
`nus-aircon-checker` repository (a TypeScript Telegram bot wrapping the EVS
metering portal), together with proofs settling the frozen claims about it.

Modelling conventions, used throughout:

* JavaScript numbers that the source guards with `Number.isFinite` are
  modelled as `ℚ` (every value the guarded code ever stores is a finite
  decimal); `null`/absent values become `Option`.
* Thrown JS errors become `Except String`; an `Error`'s `message` is the
  `String` payload.
* ISO `YYYY-MM-DD` date strings are modelled as `Int` day numbers.
  Lexicographic comparison of ISO date strings coincides with chronological
  comparison, and `Date.setDate`/24h stepping followed by
  `toISOString().slice(0,10)` advances the day number by exactly one, so the
  source's string-level date arithmetic is the integer arithmetic used here.
* JS string-keyed objects / `Map`s are modelled as association lists over
  their (modelled) key type, looked up by first match.
-/

/-- `pat` is a prefix of `s` (character lists). -/
def charPrefix : List Char → List Char → Bool
  | [], _ => true
  | _ :: _, [] => false
  | a :: as, b :: bs => a == b && charPrefix as bs

/-- `pat` occurs somewhere in `s` (character lists). -/
def charInfix (pat : List Char) : List Char → Bool
  | [] => charPrefix pat []
  | s@(_ :: rest) => charPrefix pat s || charInfix pat rest

/-- JS `String.prototype.includes`: substring test. -/
def hasSubstr (s pat : String) : Bool := charInfix pat.toList s.toList

/-- JS `String.prototype.toLowerCase` on the ASCII strings this code base
compares (character-wise lowering). -/
def lowerStr (s : String) : String := ⟨s.data.map Char.toLower⟩

/-- JS `String.prototype.trim`: strip leading and trailing whitespace. -/
def trimStr (s : String) : String :=
  ⟨((s.data.dropWhile Char.isWhitespace).reverse.dropWhile Char.isWhitespace).reverse⟩

namespace EvsClient

/-! ## `evsClient.ts` — result types

JS numbers that pass the source's `Number.isFinite` guards are modelled as
`ℚ`; `null` becomes `Option.none`. -/

structure CreditResult where
  meterCreditBalance : Option ℚ
  lastUpdated : Option String
  endpointUsed : String
deriving Repr

structure MoneyResult where
  moneyBalance : Option ℚ
  lastUpdated : Option String
  endpointUsed : String
deriving Repr

structure Balances where
  meterCredit : CreditResult
  money : MoneyResult
deriving Repr

/-! ## `evsClient.ts` — response parsing for the balance endpoints -/

/-- A JSON value in a position the balance code inspects.  `other` stands for
any value that is neither a finite number, a string, nor `null` (objects,
booleans, `NaN`/`Infinity` — all of which `parseNumber` rejects alike). -/
inductive JVal where
  | num (q : ℚ)
  | str (s : String)
  | null
  | other
deriving Repr

/-- Value of a digit list, most significant first. -/
def digitsVal (ds : List Char) : ℕ := ds.foldl (fun a c => 10 * a + (c.toNat - 48)) 0

/-- JS `Number(string)` on the decimal-literal fragment the backend emits:
optional sign, integer digits, optional fractional digits (whitespace-trimmed;
empty string is 0).  Exotic inputs (exponents, hex, `Infinity`) are not sent
by the backend and are mapped to `none` (not a finite number). -/
def jsNumber (s : String) : Option ℚ :=
  let t := (trimStr s).data
  if t = [] then some 0
  else
    let p := match t with
      | '-' :: r => (true, r)
      | '+' :: r => (false, r)
      | _ => (false, t)
    match List.splitOn '.' p.2 with
    | [w] =>
        if w ≠ [] ∧ w.all (·.isDigit) then
          some ((if p.1 then -1 else 1) * (digitsVal w : ℚ))
        else none
    | [w, f] =>
        if (w ≠ [] ∨ f ≠ []) ∧ w.all (·.isDigit) ∧ f.all (·.isDigit) then
          some ((if p.1 then -1 else 1) *
            ((digitsVal w : ℚ) + (digitsVal f : ℚ) / (10 : ℚ) ^ f.length))
        else none
    | _ => none

/-- `parseNumber` (evsClient.ts): a finite number is itself; a string is
converted with `Number(...)` and kept when finite; anything else is
`undefined`. -/
def parseNumber : JVal → Option ℚ
  | .num q => some q
  | .str s => jsNumber s
  | _ => none

/-- `SAFE_INFO_MESSAGES` (evsClient.ts). -/
def SAFE_INFO_MESSAGES : List String :=
  ["empty tariff", "empty result", "credit balance not found", "no data",
   "no history", "no reading", "no record", "no records", "not found"]

/-- `isSafeInfoMessage` (evsClient.ts) on a string `info` value:
`lower = info.toLowerCase().trim()`, then membership in the allow-list or a
`"no "` prefix.  (A non-string `info` is never truthy in the call sites
modelled here, which pass the `info` field of the body.) -/
def isSafeInfoMessage (info : String) : Bool :=
  let lower := trimStr (lowerStr info)
  SAFE_INFO_MESSAGES.contains lower || charPrefix "no ".data lower.data

/-- The JSON body fields the two balance fetchers read.  The backend sends
`error`/`err`/`info` as strings when present. -/
structure ApiBody where
  error : Option String
  err : Option String
  info : Option String
  credit_bal : Option JVal
  ref_bal : Option JVal
  tariff_timestamp : Option String
  last_updated : Option String
deriving Repr

/-- An HTTP response as the fetchers see it: status code plus parsed JSON
body (`none` when `resp.json()` threw, making `data` undefined). -/
structure ApiResp where
  status : Nat
  body : Option ApiBody
deriving Repr

/-- JS truthiness of an optional string field (`undefined` and `""` are
falsy). -/
def strTruthy : Option String → Bool
  | some s => s ≠ ""
  | none => false

/-- JS `a || b` for an optional string with a default (used for
`data?.error || data?.err || `HTTP ...``). -/
def jsOrStr (a : Option String) (d : String) : String :=
  match a with
  | some s => if s = "" then d else s
  | none => d

/-- `lastUpdated` extraction shared by both fetchers:
`tariff_timestamp ?? last_updated` (string-typed fields only). -/
def lastUpdatedOf (b : Option ApiBody) : Option String :=
  match b.bind ApiBody.tariff_timestamp with
  | some s => some s
  | none => b.bind ApiBody.last_updated

def METER_CREDIT_ENDPOINT : String := "https://ore.evs.com.sg/evs1/get_credit_bal"

def MONEY_BALANCE_ENDPOINT : String := "https://ore.evs.com.sg/tcm/get_credit_balance"

/-- `fetchMeterCreditBalance` (evsClient.ts), from the HTTP response on: the
403 check, the `!resp.ok` error chain, the fatal `error` field, the
benign-`info`-and-no-balance null path, the unrecognized-`info` promotion to
an error, and the permissive numeric parse of `credit_bal`. -/
def fetchMeterCreditBalance (r : ApiResp) : Except String CreditResult :=
  let dataError := r.body.bind ApiBody.error
  let dataErr := r.body.bind ApiBody.err
  let dataInfo := r.body.bind ApiBody.info
  let bal := r.body.bind ApiBody.credit_bal
  if r.status = 403 then .error "Not authorized (403)"
  else if ¬ (200 ≤ r.status ∧ r.status < 300) then
    .error (jsOrStr dataError (jsOrStr dataErr ("HTTP " ++ toString r.status)))
  else if strTruthy dataError then .error (jsOrStr dataError "")
  else if !bal.isSome && strTruthy dataInfo && isSafeInfoMessage (jsOrStr dataInfo "") then
    .ok ⟨none, none, METER_CREDIT_ENDPOINT⟩
  else if strTruthy dataInfo && !isSafeInfoMessage (jsOrStr dataInfo "") then
    .error (jsOrStr dataInfo "")
  else
    .ok ⟨bal.bind parseNumber, lastUpdatedOf r.body, METER_CREDIT_ENDPOINT⟩

/-- `fetchMoneyBalance` (evsClient.ts) — identical shape on the `ref_bal`
field. -/
def fetchMoneyBalance (r : ApiResp) : Except String MoneyResult :=
  let dataError := r.body.bind ApiBody.error
  let dataErr := r.body.bind ApiBody.err
  let dataInfo := r.body.bind ApiBody.info
  let bal := r.body.bind ApiBody.ref_bal
  if r.status = 403 then .error "Not authorized (403)"
  else if ¬ (200 ≤ r.status ∧ r.status < 300) then
    .error (jsOrStr dataError (jsOrStr dataErr ("HTTP " ++ toString r.status)))
  else if strTruthy dataError then .error (jsOrStr dataError "")
  else if !bal.isSome && strTruthy dataInfo && isSafeInfoMessage (jsOrStr dataInfo "") then
    .ok ⟨none, none, MONEY_BALANCE_ENDPOINT⟩
  else if strTruthy dataInfo && !isSafeInfoMessage (jsOrStr dataInfo "") then
    .error (jsOrStr dataInfo "")
  else
    .ok ⟨bal.bind parseNumber, lastUpdatedOf r.body, MONEY_BALANCE_ENDPOINT⟩

/-! ## `evsClient.ts` — `withAuthRetry` -/

/-- The retry classification used by `withAuthRetry`:
`msg.includes("403") || msg.toLowerCase().includes("not authorized")`
(the source tests the negation and rethrows). -/
def isAuthRetryMsg (msg : String) : Bool :=
  hasSubstr msg "403" || hasSubstr (lowerStr msg) "not authorized"

/-- Observable outcome of one `withAuthRetry(fn)` call: the value returned /
error propagated, how many times `fn` was invoked, and whether `this.logout()`
(discarding `loginState` and `legacyState`) ran. -/
structure RetryTrace (α : Type) where
  result : Except String α
  calls : Nat
  loggedOut : Bool
deriving Repr

/-- `withAuthRetry` (evsClient.ts).  `first` is the outcome of the first
`fn()` invocation; `second` the outcome a second invocation would produce
(only consulted when the source actually re-invokes `fn`). -/
def withAuthRetry {α : Type} (first second : Except String α) : RetryTrace α :=
  match first with
  | .ok a => ⟨.ok a, 1, false⟩
  | .error m =>
    if isAuthRetryMsg m then ⟨second, 2, true⟩
    else ⟨.error m, 1, false⟩

end EvsClient

namespace EvsBot

/-! ## `bot.ts` — `getEffectiveBalance` -/

/-- `getEffectiveBalance` (bot.ts).  `hasMoney`/`hasMeter` are the source's
`x !== null && Number.isFinite(x)` tests; `Number.isFinite` holds for every
stored balance (they come from `parseNumber`), so presence is `Option.isSome`. -/
def getEffectiveBalance (balances : EvsClient.Balances) : ℚ :=
  match balances.money.moneyBalance, balances.meterCredit.meterCreditBalance with
  | some money, none => money
  | none, some meter => meter
  | none, none => 0
  | some money, some meter =>
    if money ≥ 100 ∧ meter < 100 then meter
    else if money ≥ 100 ∧ meter ≥ 100 then min money meter
    else money

end EvsBot

namespace Fallback

/-! ## `evsClientWithFallback.ts` — login orchestration -/

inductive ClientMode where
  | main
  | legacy
deriving DecidableEq, Repr

structure LoginResult where
  mode : ClientMode
  username : String
deriving DecidableEq, Repr

/-- `LEGACY_FALLBACK_ERRORS` (evsClientWithFallback.ts): errors that indicate
the account works on legacy but not on the main API. -/
def LEGACY_FALLBACK_ERRORS : List String :=
  ["user is disabled", "account disabled", "not authorized", "invalid credentials"]

/-- `shouldFallbackToLegacy` (evsClientWithFallback.ts): lowercase the error
message and test each allow-list entry as a substring. -/
def shouldFallbackToLegacy (msg : String) : Bool :=
  LEGACY_FALLBACK_ERRORS.any (fun e => hasSubstr (lowerStr msg) e)

/-- Observable outcome of one orchestrator `login` call: the result, which
backends were attempted, and the affinity (`setUserMode`) recorded. -/
structure LoginTrace where
  result : Except String LoginResult
  triedMain : Bool
  triedLegacy : Bool
  recorded : Option ClientMode
deriving Repr

/-- `EvsClientWithFallback.login`.  `mainRes` / `legacyRes` are the outcomes
the respective client's `login` would produce (only consulted when the
orchestrator actually calls that client). -/
def login (knownMode : Option ClientMode) (username : String)
    (mainRes legacyRes : Except String Unit) : LoginTrace :=
  if knownMode = some .legacy then
    match legacyRes with
    | .ok _ => ⟨.ok ⟨.legacy, username⟩, false, true, none⟩
    | .error e => ⟨.error e, false, true, none⟩
  else
    match mainRes with
    | .ok _ => ⟨.ok ⟨.main, username⟩, true, false, some .main⟩
    | .error me =>
      if shouldFallbackToLegacy me then
        match legacyRes with
        | .ok _ => ⟨.ok ⟨.legacy, username⟩, true, true, some .legacy⟩
        | .error le =>
          ⟨.error ("Login failed on both APIs. Main: " ++ me ++ ". Legacy: " ++ le),
            true, true, none⟩
      else ⟨.error me, true, false, none⟩

end Fallback

namespace Storage

/-! ## `storage.ts` — daily-usage bookkeeping

A `DailyUsageRecord` (`Record<string, number>`, ISO date → amount) is an
association list over `Int` day numbers, looked up by first matching key
(object keys are unique, so first-match lookup is object lookup). -/

/-- `usage[dateStr]` (JS object indexing; `none` = `undefined`). -/
def recGet (usage : List (Int × ℚ)) (d : Int) : Option ℚ :=
  (usage.find? (fun e => e.1 == d)).map Prod.snd

structure SpentResult where
  total : ℚ
  dailyBreakdown : List (Int × ℚ)
  daysTracked : Nat
deriving Repr

/-- Loop body of `getTotalSpent`: on day offset `i`, a present entry is
prepended (`unshift`) to the breakdown and added to the total; a missing date
is skipped. -/
def spentStep (usage : List (Int × ℚ)) (today : Int)
    (acc : ℚ × List (Int × ℚ)) (i : Nat) : ℚ × List (Int × ℚ) :=
  match recGet usage (today - i) with
  | some amount => (acc.1 + amount, (today - i, amount) :: acc.2)
  | none => acc

/-- `EncryptedStorage.getTotalSpent` (storage.ts): walk offsets
`i = 0 … days-1` from today, sum and collect only the dates present. -/
def getTotalSpent (usage : List (Int × ℚ)) (today : Int) (days : Nat) : SpentResult :=
  let s := (List.range days).foldl (spentStep usage today) ((0 : ℚ), [])
  ⟨s.1, s.2, s.2.length⟩

/-- `EncryptedStorage.pruneOldUsage` (storage.ts): keep exactly the entries
with `date >= cutoff`, `cutoff = today - keepDays` (ISO-string comparison of
dates is chronological comparison). -/
def pruneOldUsage (usage : List (Int × ℚ)) (today : Int) (keepDays : Nat) :
    List (Int × ℚ) :=
  usage.filter (fun e => decide (today - keepDays ≤ e.1))

/-- A record of 120 distinct consecutive daily entries ending today
(day `0`), one unit spent per day. -/
def usage120 : List (Int × ℚ) := (List.range 120).map (fun i => ((0 : Int) - i, 1))

/-- A record with exactly 5 of the last 7 dates present (today is day `0`;
days `-3` and `-5` are missing). -/
def usageEx5 : List (Int × ℚ) := [(0, 1), (-1, 2), (-2, 3), (-4, 4), (-6, 5)]

end Storage

namespace MutexModel

/-! ## `mutex.ts` — the promise-chain mutex

The runtime is single-threaded and cooperative: handlers run one at a time in
the order the microtask queue schedules them.  For the linear chain the
`Mutex` builds, a settled promise is fully described by the ordered list of
task invocations that have run by the time it settles together with its
settlement value, which is how promises are modelled here. -/

/-- A settled promise: `ran` is the ordered list of (indices of) tasks that
have executed by the time this promise settles; `val` its settlement. -/
structure ChainProm (α : Type) where
  ran : List Nat
  val : Except String α
deriving Repr

/-- `p.then(fn, fn)` where `fn` is the no-argument task numbered `idx` with
outcome `out`: the task runs exactly once, strictly after `p` settles —
whether `p` was fulfilled or rejected — and its outcome settles the new
promise. -/
def thenRunTask {α β : Type} (p : ChainProm β) (idx : Nat) (out : Except String α) :
    ChainProm α :=
  ⟨p.ran ++ [idx], out⟩

/-- `p.then(() => undefined, () => undefined)`: executes no task and settles
fulfilled regardless of `p`'s outcome. -/
def thenSwallow {α : Type} (p : ChainProm α) : ChainProm Unit :=
  ⟨p.ran, .ok ()⟩

/-- The `Mutex` state: its private `chain` promise. -/
structure Mutex where
  chain : ChainProm Unit

/-- A fresh `Mutex`: `chain = Promise.resolve()`. -/
def Mutex.new : Mutex := ⟨⟨[], .ok ()⟩⟩

/-- `Mutex.run` (mutex.ts):
`const next = this.chain.then(fn, fn); this.chain = next.then(u, u); return next`
for task `idx` whose own outcome is `out`. -/
def Mutex.run {α : Type} (m : Mutex) (idx : Nat) (out : Except String α) :
    Mutex × ChainProm α :=
  let next := thenRunTask m.chain idx out
  (⟨thenSwallow next⟩, next)

/-- Submit a list of tasks (numbered consecutively from `i0`) to the mutex in
order, collecting the promise each `run` call returns. -/
def runSeq {α : Type} (m : Mutex) (i0 : Nat) :
    List (Except String α) → Mutex × List (ChainProm α)
  | [] => (m, [])
  | o :: os =>
    let r := Mutex.run m i0 o
    let rest := runSeq r.1 (i0 + 1) os
    (rest.1, r.2 :: rest.2)

/-- Closed form of the promises `runSeq` hands back (spec-side helper). -/
def expectedRuns {α : Type} (r0 : List Nat) (i0 : Nat) :
    List (Except String α) → List (ChainProm α)
  | [] => []
  | o :: os => ⟨r0 ++ [i0], o⟩ :: expectedRuns (r0 ++ [i0]) (i0 + 1) os

end MutexModel

namespace Storage

/-! ## `storage.ts` — encrypted persistence

`encrypt`/`decrypt` wrap two external Node primitives, which are modelled
abstractly by their contracts and instantiated concretely for the witnesses:

* `Buffer.toString("base64")` / `Buffer.from(_, "base64")` — any total
  decoder inverting the encoder whose output alphabet avoids the `':'`
  delimiter (true of base64);
* `aes-256-gcm` via `createCipheriv`/`createDecipheriv` with auth tag — a
  deterministic authenticated-encryption scheme: same-key decryption of an
  honest ciphertext/tag recovers the plaintext, wrong-key decryption is
  rejected (`decipher.final()` throws), tags have `AUTH_TAG_LENGTH = 16`.

Plaintexts are byte lists (the source converts the JSON string with
`cipher.update(data, "utf8")`). -/

abbrev Byte := Fin 256

structure ByteCodec where
  encode : List Byte → List Char
  decode : List Char → List Byte
  decode_encode : ∀ bs, decode (encode bs) = bs
  colon_free : ∀ bs, ':' ∉ encode bs

structure AEADScheme (κ : Type) where
  enc : κ → List Byte → List Byte → List Byte × List Byte
  dec : κ → List Byte → List Byte → List Byte → Option (List Byte)
  tag_len : ∀ k iv m, (enc k iv m).2.length = 16
  dec_enc : ∀ k iv m, dec k iv (enc k iv m).1 (enc k iv m).2 = some m
  dec_wrong_key : ∀ k k' iv m, k' ≠ k →
    dec k' iv (enc k iv m).1 (enc k iv m).2 = none

/-- `encrypt` (storage.ts): with a fresh `iv` (`randomBytes(IV_LENGTH)`,
passed as a parameter), produce
`iv.toString("base64") : authTag.toString("base64") : encrypted.toString("base64")`. -/
def encrypt {κ : Type} (A : AEADScheme κ) (C : ByteCodec) (data : List Byte)
    (key : κ) (iv : List Byte) : List Char :=
  let e := A.enc key iv data
  C.encode iv ++ [':'] ++ C.encode e.2 ++ [':'] ++ C.encode e.1

/-- `decrypt` (storage.ts, usage-tracking variant): split the payload on
`':'`, demand exactly 3 parts (matching `[p0, p1, p2]` is the
`parts.length !== 3` check plus the `parts[i]!` accesses), check the IV and
auth-tag lengths, then decipher; failed authentication throws. -/
def decrypt {κ : Type} (A : AEADScheme κ) (C : ByteCodec) (payload : List Char)
    (key : κ) : Except String (List Byte) :=
  match payload.splitOn ':' with
  | [p0, p1, p2] =>
    let iv := C.decode p0
    let authTag := C.decode p1
    let encrypted := C.decode p2
    if iv.length ≠ 16 then .error "Invalid IV length"
    else if authTag.length ≠ 16 then .error "Invalid auth tag length"
    else
      match A.dec key iv encrypted authTag with
      | some m => .ok m
      | none => .error "Unsupported state or unable to authenticate data"
  | _ => .error "Invalid encrypted payload format"

/-! Concrete instances of the two primitive contracts (used to witness the
parameterized theorems on explicit inputs). -/

/-- Byte-to-character injection avoiding `':'` (codepoints 65–320). -/
def byteChar (b : Byte) : Char := Char.ofNat (b.val + 65)

/-- Left inverse of `byteChar`. -/
def charByte (c : Char) : Byte :=
  if h : 65 ≤ c.toNat ∧ c.toNat < 321 then ⟨c.toNat - 65, by omega⟩ else 0

set_option maxRecDepth 4000 in
theorem charByte_byteChar : ∀ b : Byte, charByte (byteChar b) = b := by decide

set_option maxRecDepth 4000 in
theorem byteChar_ne_colon : ∀ b : Byte, byteChar b ≠ ':' := by decide

/-- A concrete colon-free codec. -/
def demoCodec : ByteCodec where
  encode bs := bs.map byteChar
  decode cs := cs.map charByte
  decode_encode bs := by
    simp [List.map_map, Function.comp_def, charByte_byteChar]
  colon_free bs := by
    intro h
    rcases List.mem_map.mp h with ⟨b, _, hb⟩
    exact byteChar_ne_colon b hb

/-- A concrete authenticated-encryption scheme over single-byte keys: the
ciphertext is the plaintext, the 16-byte tag binds the key. -/
def demoAEAD : AEADScheme Byte where
  enc k _ m := (m, k :: List.replicate 15 (0 : Byte))
  dec k _ ct tag := if tag = k :: List.replicate 15 (0 : Byte) then some ct else none
  tag_len := by intro k iv m; simp
  dec_enc := by intro k iv m; simp
  dec_wrong_key := by
    intro k k' iv m h
    simp only []
    rw [if_neg]
    simp only [List.cons.injEq]
    exact fun hc => h hc.1.symm

/-! ## `storage.ts` — `load` -/

structure UserCreds where
  username : String
  password : String
deriving Repr

structure UserReminder where
  chatId : Int
  enabled : Bool
deriving Repr

/-- `StorageData`, the persisted JSON shape (user ids are the
`Number(userId)` keys). -/
structure StorageData where
  creds : List (Nat × UserCreds)
  reminders : List (Nat × UserReminder)
  dailyUsage : List (Nat × List (Int × ℚ))
deriving Repr

/-- The in-memory maps of `EncryptedStorage`. -/
structure StorageState where
  creds : List (Nat × UserCreds)
  reminders : List (Nat × UserReminder)
  dailyUsage : List (Nat × List (Int × ℚ))
deriving Repr

/-- The maps as the constructor leaves them. -/
def emptyState : StorageState := ⟨[], [], []⟩

/-- Outcome of `load()`: the in-memory state it leaves behind, plus whether
the failure path (`console.error` + start empty) ran. -/
structure LoadResult where
  state : StorageState
  loggedFailure : Bool
deriving Repr

/-- `EncryptedStorage.load` (storage.ts, usage-tracking variant).
`fileExists` models `existsSync`; `contents` the file text; `parse` models
the external `JSON.parse` plus field extraction (`none` = throw).  The
`try/catch` turns every throw out of `decrypt`/`parse` into logging plus the
untouched (empty) maps; a missing file returns silently. -/
def load {κ : Type} (A : AEADScheme κ) (C : ByteCodec)
    (parse : List Byte → Option StorageData)
    (fileExists : Bool) (contents : List Char) (key : κ) : LoadResult :=
  if !fileExists then ⟨emptyState, false⟩
  else
    match decrypt A C contents key with
    | .error _ => ⟨emptyState, true⟩
    | .ok json =>
      match parse json with
      | none => ⟨emptyState, true⟩
      | some d => ⟨⟨d.creds, d.reminders, d.dailyUsage⟩, false⟩

end Storage

namespace EvsClient

/-! ## `evsClient.ts` — `getDailyUsage` (non-legacy path) -/

/-- One entry of `meter_reading_daily.history` as `fetchHistoryDaily` keeps
it: the date part of `reading_timestamp` (`rawTs.slice(0, 10)`, a day number
here) plus the parsed `reading_diff` / `reading_total`. -/
structure HistoryPoint where
  date : Int
  diff : Option ℚ
  total : Option ℚ
deriving Repr

/-- `p.diff ?? p.total`. -/
def pointVal (p : HistoryPoint) : Option ℚ :=
  match p.diff with
  | some v => some v
  | none => p.total

/-- JS `Map.get` keyed by date: first matching entry. -/
def mapGet : List (Int × ℚ) → Int → Option ℚ
  | [], _ => none
  | e :: rest, d => if e.1 = d then some e.2 else mapGet rest d

/-- JS `Map.has`. -/
def mapHas : List (Int × ℚ) → Int → Bool
  | [], _ => false
  | e :: rest, d => if e.1 = d then true else mapHas rest d

/-- JS `Map.set`: overwrite the existing entry or append a new one. -/
def mapSet (m : List (Int × ℚ)) (d : Int) (v : ℚ) : List (Int × ℚ) :=
  if mapHas m d then m.map (fun e => if e.1 = d then (d, v) else e)
  else m ++ [(d, v)]

/-- Loop body of the `byDate` accumulation:
`byDate.set(date, (byDate.get(date) ?? 0) + Math.abs(v))` for `v = diff ?? total`,
skipping points with no value. -/
def byDateStep (m : List (Int × ℚ)) (p : HistoryPoint) : List (Int × ℚ) :=
  match pointVal p with
  | none => m
  | some v => mapSet m p.date ((mapGet m p.date).getD 0 + |v|)

def buildByDate (pts : List HistoryPoint) : List (Int × ℚ) := pts.foldl byDateStep []

/-- The `for (d = start; d <= end; d += day)` walk emitting one `(date, usage)`
entry per day; `count` is the number of iterations (`end - start + 1` —
`start` is `end` minus an exact multiple of 24h, so the loop hits `end`). -/
def dailyFor (byDate : List (Int × ℚ)) : Nat → Int → List (Int × ℚ)
  | 0, _ => []
  | n + 1, d => (d, (mapGet byDate d).getD 0) :: dailyFor byDate n (d + 1)

structure DailyUsageResult where
  daily : List (Int × ℚ)
  avgPerDay : ℚ
deriving Repr

/-- `getDailyUsage` (evsClient.ts), non-legacy path, given the points the
history endpoint returned: `end` is today, `start = end - max(1, lookbackDays)`
(exact 24h multiples), `daily` walks `start … end` inclusive with usage 0 for
unseen dates, and `avgPerDay = total / daily.length` (the length guard is the
source's `daily.length > 0` ternary). -/
def getDailyUsage (pts : List HistoryPoint) (today : Int) (lookbackDays : Nat) :
    DailyUsageResult :=
  let L := max 1 lookbackDays
  let start := today - L
  let byDate := buildByDate pts
  let daily := dailyFor byDate (L + 1) start
  let total := (daily.map Prod.snd).sum
  let avgPerDay := if daily.length > 0 then total / (daily.length : ℚ) else 0
  ⟨daily, avgPerDay⟩

/-- Spec-side: total absolute usage contributed by `pts` to date `d`. -/
def contribSum (pts : List HistoryPoint) (d : Int) : ℚ :=
  (pts.filterMap (fun p => if p.date = d then (pointVal p).map (fun v => |v|) else none)).sum

/-- Spec-side: some point contributes to date `d`. -/
def touches (pts : List HistoryPoint) (d : Int) : Bool :=
  pts.any (fun p => p.date == d && (pointVal p).isSome)

end EvsClient

/-! ## Claim theorems -/

/-- C1: an operation wrapped by `withAuthRetry` that first fails with a
403 / "not authorized" error discards the session and is retried exactly once
(a second failure propagating as the final result); any first error not
matching that classification propagates immediately, with no retry and no
session discard; a first success is returned from the single call. -/
theorem c1_withAuthRetry {α : Type} (first second : Except String α) :
    (∀ m, first = .error m → EvsClient.isAuthRetryMsg m = true →
      EvsClient.withAuthRetry first second = ⟨second, 2, true⟩) ∧
    (∀ m, first = .error m → EvsClient.isAuthRetryMsg m = false →
      EvsClient.withAuthRetry first second = ⟨.error m, 1, false⟩) ∧
    (∀ a, first = .ok a →
      EvsClient.withAuthRetry first second = ⟨.ok a, 1, false⟩) := by
  refine ⟨?_, ?_, ?_⟩
  · rintro m rfl h
    simp [EvsClient.withAuthRetry, h]
  · rintro m rfl h
    simp [EvsClient.withAuthRetry, h]
  · rintro a rfl
    simp [EvsClient.withAuthRetry]

/-- C1 witness: a first failure `"Not authorized (403)"` is retried (session
discarded, second outcome returned); a first failure `"HTTP 500"` propagates
untouched with one call and no logout. -/
theorem c1_withAuthRetry_witness :
    EvsClient.withAuthRetry (α := Nat) (.error "Not authorized (403)") (.ok 7)
      = ⟨.ok 7, 2, true⟩ ∧
    EvsClient.withAuthRetry (α := Nat) (.error "HTTP 500") (.ok 7)
      = ⟨.error "HTTP 500", 1, false⟩ := by
  constructor
  · exact (c1_withAuthRetry (.error "Not authorized (403)") (.ok 7)).1 _ rfl (by decide)
  · exact (c1_withAuthRetry (.error "HTTP 500") (.ok 7)).2.1 _ rfl (by decide)

/-- `Number("0") = 0`. -/
theorem parseNumber_str_zero : EvsClient.parseNumber (.str "0") = some 0 := by
  show some ((1 : ℚ) * (EvsClient.digitsVal ['0'] : ℚ)) = some 0
  norm_num [show EvsClient.digitsVal ['0'] = 0 from rfl]

/-- C2: for both balance fetchers, on an OK response with no fatal `error`
field: a benign `info` message (allow-list member or `"no "`-prefixed, after
lowercasing/trimming) with the balance field absent yields a `null` balance
(never `0`); a balance field `"0"` or `0` yields the number `0` (never
`null`), provided any `info` present is benign; and a truthy `info` message
that is not benign makes the call fail with that message. -/
theorem c2_balance_null_vs_zero (r : EvsClient.ApiResp)
    (hok : 200 ≤ r.status ∧ r.status < 300)
    (herr : EvsClient.strTruthy (r.body.bind EvsClient.ApiBody.error) = false) :
    (∀ info, r.body.bind EvsClient.ApiBody.info = some info → info ≠ "" →
      EvsClient.isSafeInfoMessage info = true →
      r.body.bind EvsClient.ApiBody.credit_bal = none →
      EvsClient.fetchMeterCreditBalance r =
        .ok ⟨none, none, EvsClient.METER_CREDIT_ENDPOINT⟩) ∧
    (∀ info, r.body.bind EvsClient.ApiBody.info = some info → info ≠ "" →
      EvsClient.isSafeInfoMessage info = true →
      r.body.bind EvsClient.ApiBody.ref_bal = none →
      EvsClient.fetchMoneyBalance r =
        .ok ⟨none, none, EvsClient.MONEY_BALANCE_ENDPOINT⟩) ∧
    (∀ v, r.body.bind EvsClient.ApiBody.credit_bal = some v →
      (v = .str "0" ∨ v = .num 0) →
      (∀ info, r.body.bind EvsClient.ApiBody.info = some info → info ≠ "" →
        EvsClient.isSafeInfoMessage info = true) →
      ∃ lu, EvsClient.fetchMeterCreditBalance r =
        .ok ⟨some 0, lu, EvsClient.METER_CREDIT_ENDPOINT⟩) ∧
    (∀ v, r.body.bind EvsClient.ApiBody.ref_bal = some v →
      (v = .str "0" ∨ v = .num 0) →
      (∀ info, r.body.bind EvsClient.ApiBody.info = some info → info ≠ "" →
        EvsClient.isSafeInfoMessage info = true) →
      ∃ lu, EvsClient.fetchMoneyBalance r =
        .ok ⟨some 0, lu, EvsClient.MONEY_BALANCE_ENDPOINT⟩) ∧
    (∀ info, r.body.bind EvsClient.ApiBody.info = some info → info ≠ "" →
      EvsClient.isSafeInfoMessage info = false →
      EvsClient.fetchMeterCreditBalance r = .error info) ∧
    (∀ info, r.body.bind EvsClient.ApiBody.info = some info → info ≠ "" →
      EvsClient.isSafeInfoMessage info = false →
      EvsClient.fetchMoneyBalance r = .error info) := by
  have h403 : ¬ r.status = 403 := by omega
  have herr' : ¬ (EvsClient.strTruthy (r.body.bind EvsClient.ApiBody.error) = true) := by
    simp [herr]
  refine ⟨?_, ?_, ?_, ?_, ?_, ?_⟩
  · intro info hinfo hne hsafe hbal
    simp only [EvsClient.fetchMeterCreditBalance, hinfo, hbal]
    rw [if_neg h403, if_neg (not_not_intro hok), if_neg herr']
    simp [EvsClient.strTruthy, EvsClient.jsOrStr, hsafe, hne]
  · intro info hinfo hne hsafe hbal
    simp only [EvsClient.fetchMoneyBalance, hinfo, hbal]
    rw [if_neg h403, if_neg (not_not_intro hok), if_neg herr']
    simp [EvsClient.strTruthy, EvsClient.jsOrStr, hsafe, hne]
  · intro v hbal hv hins
    refine ⟨EvsClient.lastUpdatedOf r.body, ?_⟩
    simp only [EvsClient.fetchMeterCreditBalance, hbal]
    rw [if_neg h403, if_neg (not_not_intro hok), if_neg herr']
    have hv0 : EvsClient.parseNumber v = some 0 := by
      rcases hv with rfl | rfl
      · exact parseNumber_str_zero
      · rfl
    rcases hi : r.body.bind EvsClient.ApiBody.info with _ | i
    · simp [EvsClient.strTruthy, hv0]
    · by_cases hie : i = ""
      · simp [EvsClient.strTruthy, hie, hv0]
      · have hsafe := hins i hi hie
        simp [EvsClient.strTruthy, EvsClient.jsOrStr, hie, hsafe, hv0]
  · intro v hbal hv hins
    refine ⟨EvsClient.lastUpdatedOf r.body, ?_⟩
    simp only [EvsClient.fetchMoneyBalance, hbal]
    rw [if_neg h403, if_neg (not_not_intro hok), if_neg herr']
    have hv0 : EvsClient.parseNumber v = some 0 := by
      rcases hv with rfl | rfl
      · exact parseNumber_str_zero
      · rfl
    rcases hi : r.body.bind EvsClient.ApiBody.info with _ | i
    · simp [EvsClient.strTruthy, hv0]
    · by_cases hie : i = ""
      · simp [EvsClient.strTruthy, hie, hv0]
      · have hsafe := hins i hi hie
        simp [EvsClient.strTruthy, EvsClient.jsOrStr, hie, hsafe, hv0]
  · intro info hinfo hne hunsafe
    simp only [EvsClient.fetchMeterCreditBalance, hinfo]
    rw [if_neg h403, if_neg (not_not_intro hok), if_neg herr']
    simp [EvsClient.strTruthy, EvsClient.jsOrStr, hunsafe, hne]
  · intro info hinfo hne hunsafe
    simp only [EvsClient.fetchMoneyBalance, hinfo]
    rw [if_neg h403, if_neg (not_not_intro hok), if_neg herr']
    simp [EvsClient.strTruthy, EvsClient.jsOrStr, hunsafe, hne]

/-- C2 witness: a 200 response with `info: "No data found"` and no balance
field yields `null`; a 200 response with `credit_bal: "0"` / `ref_bal: 0`
yields `0`; a 200 response with `info: "quota exceeded"` fails with that
message. -/
theorem c2_balance_null_vs_zero_witness :
    EvsClient.fetchMeterCreditBalance
        ⟨200, some ⟨none, none, some "No data found", none, none, none, none⟩⟩ =
      .ok ⟨none, none, EvsClient.METER_CREDIT_ENDPOINT⟩ ∧
    (∃ lu, EvsClient.fetchMeterCreditBalance
        ⟨200, some ⟨none, none, none, some (.str "0"), none, none, none⟩⟩ =
      .ok ⟨some 0, lu, EvsClient.METER_CREDIT_ENDPOINT⟩) ∧
    (∃ lu, EvsClient.fetchMoneyBalance
        ⟨200, some ⟨none, none, none, none, some (.num 0), none, none⟩⟩ =
      .ok ⟨some 0, lu, EvsClient.MONEY_BALANCE_ENDPOINT⟩) ∧
    EvsClient.fetchMoneyBalance
        ⟨200, some ⟨none, none, some "quota exceeded", none, some (.num 5), none, none⟩⟩ =
      .error "quota exceeded" := by
  refine ⟨?_, ?_, ?_, ?_⟩
  · exact (c2_balance_null_vs_zero
      ⟨200, some ⟨none, none, some "No data found", none, none, none, none⟩⟩
      (by decide) rfl).1 "No data found" rfl (by decide) (by decide) rfl
  · exact (c2_balance_null_vs_zero
      ⟨200, some ⟨none, none, none, some (.str "0"), none, none, none⟩⟩
      (by decide) rfl).2.2.1 (.str "0") rfl (Or.inl rfl)
      (by intro info h; simp at h)
  · exact (c2_balance_null_vs_zero
      ⟨200, some ⟨none, none, none, none, some (.num 0), none, none⟩⟩
      (by decide) rfl).2.2.2.1 (.num 0) rfl (Or.inr rfl)
      (by intro info h; simp at h)
  · exact (c2_balance_null_vs_zero
      ⟨200, some ⟨none, none, some "quota exceeded", none, some (.num 5), none, none⟩⟩
      (by decide) rfl).2.2.2.2.2 "quota exceeded" rfl (by decide) (by decide)

/-- C3: `getEffectiveBalance` is a total function of the two balance values:
with both present it takes the smaller when both are ≥ 100, the one < 100 when
exactly one is ≥ 100, and otherwise the money balance; with exactly one
present it returns that one; and on the spec's three concrete scenarios it
yields 8, 130 and 9.35 respectively. -/
theorem c3_getEffectiveBalance (b : EvsClient.Balances) :
    (∀ money meter, b.money.moneyBalance = some money →
        b.meterCredit.meterCreditBalance = some meter →
        EvsBot.getEffectiveBalance b =
          (if money ≥ 100 ∧ meter ≥ 100 then min money meter
           else if money ≥ 100 ∧ meter < 100 then meter
           else if meter ≥ 100 ∧ money < 100 then money
           else money)) ∧
    (∀ money, b.money.moneyBalance = some money →
        b.meterCredit.meterCreditBalance = none →
        EvsBot.getEffectiveBalance b = money) ∧
    (∀ meter, b.money.moneyBalance = none →
        b.meterCredit.meterCreditBalance = some meter →
        EvsBot.getEffectiveBalance b = meter) ∧
    EvsBot.getEffectiveBalance ⟨⟨some 8, none, "e"⟩, ⟨some 120, none, "e"⟩⟩ = 8 ∧
    EvsBot.getEffectiveBalance ⟨⟨some 130, none, "e"⟩, ⟨some 150, none, "e"⟩⟩ = 130 ∧
    EvsBot.getEffectiveBalance ⟨⟨none, none, "e"⟩, ⟨some (935/100), none, "e"⟩⟩
      = 935/100 := by
  refine ⟨?_, ?_, ?_,
    by norm_num [EvsBot.getEffectiveBalance],
    by norm_num [EvsBot.getEffectiveBalance],
    by norm_num [EvsBot.getEffectiveBalance]⟩
  · intro money meter hm hme
    simp only [EvsBot.getEffectiveBalance, hm, hme]
    rcases le_or_lt (100 : ℚ) money with h1 | h1 <;>
      rcases le_or_lt (100 : ℚ) meter with h2 | h2
    · rw [if_neg (fun h => absurd h.2 (not_lt.mpr h2)), if_pos ⟨h1, h2⟩,
        if_pos ⟨h1, h2⟩]
    · rw [if_pos ⟨h1, h2⟩, if_neg (fun h => absurd h.2 (not_le.mpr h2)),
        if_pos ⟨h1, h2⟩]
    · rw [if_neg (fun h => absurd h.1 (not_le.mpr h1)),
        if_neg (fun h => absurd h.1 (not_le.mpr h1)),
        if_neg (fun h => absurd h.1 (not_le.mpr h1)),
        if_neg (fun h => absurd h.1 (not_le.mpr h1)),
        if_pos ⟨h2, h1⟩]
    · rw [if_neg (fun h => absurd h.1 (not_le.mpr h1)),
        if_neg (fun h => absurd h.1 (not_le.mpr h1)),
        if_neg (fun h => absurd h.1 (not_le.mpr h1)),
        if_neg (fun h => absurd h.1 (not_le.mpr h1)),
        if_neg (fun h => absurd h.1 (not_le.mpr h2))]
  · intro money hm hme
    simp [EvsBot.getEffectiveBalance, hm, hme]
  · intro meter hm hme
    simp [EvsBot.getEffectiveBalance, hm, hme]

/-- C3 witness: instantiates the hypotheses of `c3_getEffectiveBalance` on the
spec's `{money: 120, meter: 8}` scenario. -/
theorem c3_getEffectiveBalance_witness :
    EvsBot.getEffectiveBalance ⟨⟨some 8, none, "e"⟩, ⟨some 120, none, "e"⟩⟩ = 8 := by
  have h := (c3_getEffectiveBalance ⟨⟨some 8, none, "e"⟩, ⟨some 120, none, "e"⟩⟩).1
    120 8 rfl rfl
  simpa using h

/-- Accumulated form of the `getTotalSpent` loop: the fold adds exactly the
present amounts and prepends exactly the present dates. -/
theorem spentFold (usage : List (Int × ℚ)) (today : Int) (days : Nat)
    (t0 : ℚ) (b0 : List (Int × ℚ)) :
    (List.range days).foldl (Storage.spentStep usage today) (t0, b0) =
      (t0 + ((List.range days).filterMap (fun i => Storage.recGet usage (today - i))).sum,
       ((List.range days).filterMap
         (fun i => (Storage.recGet usage (today - i)).map (fun a => (today - i, a)))).reverse
         ++ b0) := by
  induction days with
  | zero => simp
  | succ n ih =>
    rw [List.range_succ, List.foldl_append, ih]
    cases h : Storage.recGet usage (today - (n : Nat)) with
    | none =>
      simp [Storage.spentStep, h, List.range_succ, List.filterMap_append]
    | some a =>
      simp [Storage.spentStep, h, List.range_succ, List.filterMap_append, add_assoc]

/-- `filterMap` and `filter`-by-`isSome` count the same elements. -/
theorem length_filterMap_isSome {α β : Type} (g : α → Option β) (l : List α) :
    (l.filterMap g).length = (l.filter (fun i => (g i).isSome)).length := by
  induction l with
  | nil => rfl
  | cons a l ih => cases h : g a <;> simp [h, ih]

/-- `getTotalSpent` total: the sum of the amounts of exactly the window dates
present in the record. -/
theorem getTotalSpent_total (usage : List (Int × ℚ)) (today : Int) (days : Nat) :
    (Storage.getTotalSpent usage today days).total =
      ((List.range days).filterMap (fun i => Storage.recGet usage (today - i))).sum := by
  simp [Storage.getTotalSpent, spentFold]

/-- `getTotalSpent` day count: the number of window dates actually present. -/
theorem getTotalSpent_tracked (usage : List (Int × ℚ)) (today : Int) (days : Nat) :
    (Storage.getTotalSpent usage today days).daysTracked =
      ((List.range days).filter (fun i => (Storage.recGet usage (today - i)).isSome)).length := by
  have h := spentFold usage today days 0 []
  simp only [Storage.getTotalSpent, h]
  rw [List.append_nil, List.length_reverse, length_filterMap_isSome]
  simp

/-- C6: `getTotalSpent(userId, days)` walks the last `days` dates ending
today; its `total` is the sum of the amounts of exactly the window dates
present in the record (missing dates contribute nothing), and `daysTracked`
counts the dates actually present, not the requested `days`; with exactly 5
of the last 7 dates present, `daysTracked = 5` and `total` is the sum of
those 5 amounts. -/
theorem c6_getTotalSpent (usage : List (Int × ℚ)) (today : Int) (days : Nat) :
    (Storage.getTotalSpent usage today days).total =
      ((List.range days).filterMap (fun i => Storage.recGet usage (today - i))).sum ∧
    (Storage.getTotalSpent usage today days).daysTracked =
      ((List.range days).filter (fun i => (Storage.recGet usage (today - i)).isSome)).length ∧
    (Storage.getTotalSpent Storage.usageEx5 0 7).daysTracked = 5 ∧
    (Storage.getTotalSpent Storage.usageEx5 0 7).total = 1 + 2 + 3 + 4 + 5 := by
  refine ⟨getTotalSpent_total usage today days, getTotalSpent_tracked usage today days, ?_, ?_⟩
  · rw [getTotalSpent_tracked]
    decide
  · rw [getTotalSpent_total]
    show ([1, 2, 3, 4, 5] : List ℚ).sum = 1 + 2 + 3 + 4 + 5
    norm_num [List.sum_cons, List.sum_nil]

/-- C7 counterexample: the claim's scenario fails on the code — pruning a
120-day record with `keepDays = 90` retains 91 entries (the boundary date
exactly 90 days old satisfies `date >= cutoff`), not 90. -/
theorem c7_counterexample :
    Storage.usage120.length = 120 ∧
    (Storage.pruneOldUsage Storage.usage120 0 90).length = 91 ∧
    ¬ (Storage.pruneOldUsage Storage.usage120 0 90).length = 90 := by
  refine ⟨by decide, by decide, by decide⟩

/-- C7 (amended): `pruneOldUsage` deletes exactly the entries strictly older
than `keepDays` days before today and keeps all others, invariantly under
permutation of the record; on 120 distinct consecutive daily entries ending
today with `keepDays = 90` it retains exactly the 91 most recent dates
(today back through the boundary date 90 days ago, inclusive). -/
theorem c7_pruneOldUsage (usage : List (Int × ℚ)) (today : Int) (keepDays : Nat) :
    (∀ e, e ∈ Storage.pruneOldUsage usage today keepDays ↔
      e ∈ usage ∧ ¬ e.1 < today - keepDays) ∧
    (∀ usage', usage.Perm usage' →
      (Storage.pruneOldUsage usage today keepDays).Perm
        (Storage.pruneOldUsage usage' today keepDays)) ∧
    (Storage.pruneOldUsage Storage.usage120 0 90).map Prod.fst =
      (List.range 91).map (fun i => (0 : Int) - i) := by
  refine ⟨?_, ?_, by decide⟩
  · intro e
    simp [Storage.pruneOldUsage, List.mem_filter, not_lt]
  · intro usage' h
    exact h.filter _

/-- C7 witness: instantiates the permutation-invariance part of
`c7_pruneOldUsage` on a two-entry record and its transposition. -/
theorem c7_pruneOldUsage_witness :
    (Storage.pruneOldUsage [((0 : Int), (1 : ℚ)), (-5, 2)] 0 3).Perm
      (Storage.pruneOldUsage [((-5 : Int), (2 : ℚ)), (0, 1)] 0 3) :=
  (c7_pruneOldUsage [((0 : Int), (1 : ℚ)), (-5, 2)] 0 3).2.1 _
    (List.Perm.swap _ _ _)

/-- C4 counterexample: with no recorded affinity, a modern-login failure
`"Invalid credentials"` — a simple bad-password rejection — does NOT
propagate immediately: the orchestrator's allow-list contains
`"invalid credentials"`, so the legacy backend is attempted, and when it also
fails the combined error is raised instead of the original one. -/
theorem c4_counterexample :
    (Fallback.login none "u" (.error "Invalid credentials")
        (.error "Login failed on legacy portal")).triedLegacy = true ∧
    (Fallback.login none "u" (.error "Invalid credentials")
        (.error "Login failed on legacy portal")).result =
      .error ("Login failed on both APIs. Main: Invalid credentials. " ++
        "Legacy: Login failed on legacy portal") :=
  ⟨rfl, rfl⟩

/-- C4 (amended): with no recorded affinity the modern backend is tried
first; the legacy backend is attempted exactly when the modern error matches
the allow-list {"user is disabled", "account disabled", "not authorized",
"invalid credentials"} (case-insensitive substring) — which includes a
bad-password rejection reading "invalid credentials" — every non-matching
modern error propagates immediately without a legacy attempt, and if both
backends fail the raised error names both underlying failure messages. -/
theorem c4_login_fallback (u me le : String) (lr : Except String Unit) :
    Fallback.login none u (.ok ()) lr =
      ⟨.ok ⟨.main, u⟩, true, false, some .main⟩ ∧
    (Fallback.shouldFallbackToLegacy me = false →
      Fallback.login none u (.error me) lr = ⟨.error me, true, false, none⟩) ∧
    (Fallback.shouldFallbackToLegacy me = true →
      Fallback.login none u (.error me) (.ok ()) =
        ⟨.ok ⟨.legacy, u⟩, true, true, some .legacy⟩) ∧
    (Fallback.shouldFallbackToLegacy me = true →
      Fallback.login none u (.error me) (.error le) =
        ⟨.error ("Login failed on both APIs. Main: " ++ me ++ ". Legacy: " ++ le),
          true, true, none⟩) := by
  refine ⟨rfl, ?_, ?_, ?_⟩ <;> intro h <;> simp [Fallback.login, h]

/-- C4 witness: a modern `"User is disabled"` failure falls back to legacy
(which succeeds and is recorded), while a modern `"wrong password"` failure
propagates with no legacy attempt. -/
theorem c4_login_fallback_witness :
    Fallback.login none "alice" (.error "User is disabled") (.ok ()) =
      ⟨.ok ⟨.legacy, "alice"⟩, true, true, some .legacy⟩ ∧
    Fallback.login none "bob" (.error "wrong password") (.ok ()) =
      ⟨.error "wrong password", true, false, none⟩ := by
  constructor
  · exact (c4_login_fallback "alice" "User is disabled" "" (.ok ())).2.2.1 (by decide)
  · exact (c4_login_fallback "bob" "wrong password" "" (.ok ())).2.1 (by decide)

/-- Unfolding of `runSeq` from any reachable mutex state (the chain is always
fulfilled, with `r0` the tasks already run). -/
theorem runSeq_spec {α : Type} (os : List (Except String α)) (r0 : List Nat) (i0 : Nat) :
    MutexModel.runSeq ⟨⟨r0, .ok ()⟩⟩ i0 os =
      (⟨⟨r0 ++ List.range' i0 os.length, .ok ()⟩⟩, MutexModel.expectedRuns r0 i0 os) := by
  induction os generalizing r0 i0 with
  | nil => simp [MutexModel.runSeq, MutexModel.expectedRuns]
  | cons o os ih =>
    simp [MutexModel.runSeq, MutexModel.Mutex.run, MutexModel.thenRunTask,
      MutexModel.thenSwallow, ih, MutexModel.expectedRuns, List.range'_succ]

theorem expectedRuns_length {α : Type} (os : List (Except String α)) (r0 : List Nat)
    (i0 : Nat) : (MutexModel.expectedRuns r0 i0 os).length = os.length := by
  induction os generalizing r0 i0 with
  | nil => rfl
  | cons o os ih => simp [MutexModel.expectedRuns, ih]

theorem expectedRuns_get {α : Type} (os : List (Except String α)) (r0 : List Nat)
    (i0 k : Nat) :
    (MutexModel.expectedRuns r0 i0 os)[k]? =
      (os[k]?).map (fun o => ⟨r0 ++ List.range' i0 (k + 1), o⟩) := by
  induction os generalizing r0 i0 k with
  | nil => simp [MutexModel.expectedRuns]
  | cons o os ih =>
    cases k with
    | zero => simp [MutexModel.expectedRuns, List.range'_succ]
    | succ k =>
      simp [MutexModel.expectedRuns, ih, List.range'_succ]

/-- C8: submitting any sequence of tasks to one `Mutex` via `run`: no promise
is dropped (one per submission); each `run` resolves to its own task's value
or error; the promise returned for task `k` settles only after exactly tasks
`0 … k` have executed, in submission order — so execution is serialized and
FIFO, and a failing task (any `os` entry may be an error) never prevents a
later task from running; the final chain is fulfilled with every task run. -/
theorem c8_mutex_fifo {α : Type} (os : List (Except String α)) :
    ((MutexModel.runSeq MutexModel.Mutex.new 0 os).2).length = os.length ∧
    (∀ k : Nat, (((MutexModel.runSeq MutexModel.Mutex.new 0 os).2)[k]?).map
        MutexModel.ChainProm.val = os[k]?) ∧
    (∀ (k : Nat) (o : Except String α), os[k]? = some o →
      ((MutexModel.runSeq MutexModel.Mutex.new 0 os).2)[k]? =
        some (MutexModel.ChainProm.mk (List.range (k + 1)) o)) ∧
    (MutexModel.runSeq MutexModel.Mutex.new 0 os).1.chain =
      ⟨List.range os.length, .ok ()⟩ := by
  have h := runSeq_spec os [] 0
  refine ⟨?_, ?_, ?_, ?_⟩
  · rw [show MutexModel.Mutex.new = ⟨⟨[], .ok ()⟩⟩ from rfl, h]
    exact expectedRuns_length os [] 0
  · intro k
    rw [show MutexModel.Mutex.new = ⟨⟨[], .ok ()⟩⟩ from rfl, h]
    show ((MutexModel.expectedRuns [] 0 os)[k]?).map MutexModel.ChainProm.val = os[k]?
    rw [expectedRuns_get]
    cases os[k]? <;> rfl
  · intro k o hk
    rw [show MutexModel.Mutex.new = ⟨⟨[], .ok ()⟩⟩ from rfl, h]
    show (MutexModel.expectedRuns [] 0 os)[k]? =
      some (MutexModel.ChainProm.mk (List.range (k + 1)) o)
    rw [expectedRuns_get, hk]
    simp [List.range_eq_range']
  · rw [show MutexModel.Mutex.new = ⟨⟨[], .ok ()⟩⟩ from rfl, h]
    show (MutexModel.ChainProm.mk ([] ++ List.range' 0 os.length) (.ok ())) =
      (⟨List.range os.length, .ok ()⟩ : MutexModel.ChainProm Unit)
    simp [List.range_eq_range']

/-- C8 witness: three tasks, the middle one failing; the third task's promise
still shows tasks 0, 1, 2 all executed in order and carries the third task's
own value. -/
theorem c8_mutex_fifo_witness :
    ((MutexModel.runSeq MutexModel.Mutex.new 0
        [.ok 1, .error "boom", .ok (3 : Nat)]).2)[2]? =
      some ⟨[0, 1, 2], .ok 3⟩ := by
  have h := (c8_mutex_fifo [.ok 1, .error "boom", .ok (3 : Nat)]).2.2.1 2 (.ok 3) rfl
  rw [h]
  rfl

theorem intercalate3 {α : Type} (x : α) (a b c : List α) :
    [x].intercalate [a, b, c] = a ++ [x] ++ b ++ [x] ++ c := by
  simp [List.intercalate]

/-- Splitting an encrypted payload on `':'` recovers its three components
(the base64 alphabet is colon-free). -/
theorem encrypt_splitOn {κ : Type} (A : Storage.AEADScheme κ) (C : Storage.ByteCodec)
    (data : List Storage.Byte) (key : κ) (iv : List Storage.Byte) :
    (Storage.encrypt A C data key iv).splitOn ':' =
      [C.encode iv, C.encode (A.enc key iv data).2, C.encode (A.enc key iv data).1] := by
  have h : Storage.encrypt A C data key iv =
      [':'].intercalate
        [C.encode iv, C.encode (A.enc key iv data).2, C.encode (A.enc key iv data).1] := by
    rw [intercalate3]
    simp [Storage.encrypt]
  rw [h]
  apply List.splitOn_intercalate
  · intro l hl
    simp only [List.mem_cons, List.not_mem_nil, or_false] at hl
    rcases hl with rfl | rfl | rfl <;> exact C.colon_free _
  · simp

/-- C5: for every payload, key and 16-byte IV, decrypting the
`iv:authTag:ciphertext` blob produced by `encrypt` with the same key
reproduces the payload exactly, and decrypting it with any different key
fails with a detectable error instead of returning plaintext. -/
theorem c5_encrypt_decrypt {κ : Type} (A : Storage.AEADScheme κ) (C : Storage.ByteCodec)
    (data : List Storage.Byte) (key k' : κ) (iv : List Storage.Byte)
    (hiv : iv.length = 16) (hk : k' ≠ key) :
    Storage.decrypt A C (Storage.encrypt A C data key iv) key = .ok data ∧
    Storage.decrypt A C (Storage.encrypt A C data key iv) k' =
      .error "Unsupported state or unable to authenticate data" := by
  have hs := encrypt_splitOn A C data key iv
  constructor
  · simp [Storage.decrypt, hs, C.decode_encode, hiv, A.tag_len, A.dec_enc]
  · simp [Storage.decrypt, hs, C.decode_encode, hiv, A.tag_len,
      A.dec_wrong_key key k' iv data hk]

/-- C5 witness: a concrete payload under the concrete codec and AEAD
instances round-trips under key 3 and is rejected under key 7. -/
theorem c5_encrypt_decrypt_witness :
    Storage.decrypt Storage.demoAEAD Storage.demoCodec
        (Storage.encrypt Storage.demoAEAD Storage.demoCodec [104, 105, 33] 3
          (List.replicate 16 0)) 3 = .ok [104, 105, 33] ∧
    Storage.decrypt Storage.demoAEAD Storage.demoCodec
        (Storage.encrypt Storage.demoAEAD Storage.demoCodec [104, 105, 33] 3
          (List.replicate 16 0)) 7 =
      .error "Unsupported state or unable to authenticate data" :=
  c5_encrypt_decrypt Storage.demoAEAD Storage.demoCodec [104, 105, 33] 3 7
    (List.replicate 16 0) (by decide) (by decide)

/-- C9: `load()` never throws — it is a total function whose `catch` absorbs
every failure: with no file it returns the empty state silently; with a file
whose decryption fails, or whose decrypted text fails to parse, it logs the
failure and leaves the in-memory store empty. -/
theorem c9_load_recovers {κ : Type} (A : Storage.AEADScheme κ) (C : Storage.ByteCodec)
    (parse : List Storage.Byte → Option Storage.StorageData)
    (contents : List Char) (key : κ) :
    Storage.load A C parse false contents key = ⟨Storage.emptyState, false⟩ ∧
    (∀ e, Storage.decrypt A C contents key = .error e →
      Storage.load A C parse true contents key = ⟨Storage.emptyState, true⟩) ∧
    (∀ json, Storage.decrypt A C contents key = .ok json → parse json = none →
      Storage.load A C parse true contents key = ⟨Storage.emptyState, true⟩) := by
  refine ⟨rfl, ?_, ?_⟩
  · intro e he
    simp [Storage.load, he]
  · intro json hj hp
    simp [Storage.load, hj, hp]

/-- C9 witness: a file whose contents are not an `iv:authTag:ciphertext`
blob loads as the empty state with the failure logged. -/
theorem c9_load_recovers_witness :
    Storage.load Storage.demoAEAD Storage.demoCodec (fun _ => none) true
        "garbage".data 3 = ⟨Storage.emptyState, true⟩ :=
  (c9_load_recovers Storage.demoAEAD Storage.demoCodec (fun _ => none)
    "garbage".data 3).2.1 "Invalid encrypted payload format" rfl

theorem mapGet_replace (m : List (Int × ℚ)) (d : Int) (v : ℚ) :
    EvsClient.mapGet (m.map (fun e => if e.1 = d then (d, v) else e)) d =
      if EvsClient.mapHas m d then some v else none := by
  induction m with
  | nil => rfl
  | cons e m ih =>
    by_cases he : e.1 = d
    · simp [EvsClient.mapGet, EvsClient.mapHas, he]
    · simpa [EvsClient.mapGet, EvsClient.mapHas, he] using ih

theorem mapGet_app (m : List (Int × ℚ)) (d : Int) (v : ℚ)
    (h : EvsClient.mapHas m d = false) :
    EvsClient.mapGet (m ++ [(d, v)]) d = some v := by
  induction m with
  | nil => simp [EvsClient.mapGet]
  | cons e m ih =>
    by_cases he : e.1 = d
    · simp [EvsClient.mapHas, he] at h
    · simp only [EvsClient.mapHas, if_neg he] at h
      simpa [EvsClient.mapGet, he] using ih h

theorem mapGet_mapSet_self (m : List (Int × ℚ)) (d : Int) (v : ℚ) :
    EvsClient.mapGet (EvsClient.mapSet m d v) d = some v := by
  unfold EvsClient.mapSet
  cases hany : EvsClient.mapHas m d with
  | true => simp [mapGet_replace, hany]
  | false => simp [mapGet_app m d v hany]

theorem mapGet_replace_other (m : List (Int × ℚ)) (d d' : Int) (v : ℚ) (h : d' ≠ d) :
    EvsClient.mapGet (m.map (fun e => if e.1 = d then (d, v) else e)) d' =
      EvsClient.mapGet m d' := by
  have hdd' : ¬ d = d' := fun hc => h hc.symm
  induction m with
  | nil => rfl
  | cons e m ih =>
    by_cases he : e.1 = d
    · have he'' : ¬ e.1 = d' := by rw [he]; exact hdd'
      simpa [EvsClient.mapGet, he, hdd', he''] using ih
    · by_cases he' : e.1 = d'
      · simp [EvsClient.mapGet, he, he', h]
      · simpa [EvsClient.mapGet, he, he'] using ih

theorem mapGet_app_other (m : List (Int × ℚ)) (d d' : Int) (v : ℚ) (h : d' ≠ d) :
    EvsClient.mapGet (m ++ [(d, v)]) d' = EvsClient.mapGet m d' := by
  have hdd' : ¬ d = d' := fun hc => h hc.symm
  induction m with
  | nil => simp [EvsClient.mapGet, hdd']
  | cons e m ih =>
    by_cases he : e.1 = d'
    · simp [EvsClient.mapGet, he]
    · simpa [EvsClient.mapGet, he] using ih

theorem mapGet_mapSet_other (m : List (Int × ℚ)) (d d' : Int) (v : ℚ) (h : d' ≠ d) :
    EvsClient.mapGet (EvsClient.mapSet m d v) d' = EvsClient.mapGet m d' := by
  unfold EvsClient.mapSet
  cases hany : EvsClient.mapHas m d with
  | true => simp [mapGet_replace_other m d d' v h]
  | false => simp [mapGet_app_other m d d' v h]

theorem contribSum_of_not_touches (pts : List EvsClient.HistoryPoint) (d : Int)
    (h : EvsClient.touches pts d = false) : EvsClient.contribSum pts d = 0 := by
  induction pts with
  | nil => rfl
  | cons p pts ih =>
    simp only [EvsClient.touches, List.any_cons, Bool.or_eq_false_iff] at h
    have hnone : (if p.date = d then (EvsClient.pointVal p).map (fun v => |v|) else none)
        = none := by
      by_cases hd : p.date = d
      · cases hv : EvsClient.pointVal p with
        | none => simp [hd, hv]
        | some v => simp [hd, hv] at h
      · simp [hd]
    have ht : EvsClient.touches pts d = false := h.2
    simp only [EvsClient.contribSum, List.filterMap_cons] at *
    rw [hnone]
    exact ih ht

theorem mapGet_foldl_byDate (pts : List EvsClient.HistoryPoint) (m : List (Int × ℚ))
    (d : Int) :
    EvsClient.mapGet (pts.foldl EvsClient.byDateStep m) d =
      match EvsClient.mapGet m d with
      | some x => some (x + EvsClient.contribSum pts d)
      | none =>
        if EvsClient.touches pts d then some (EvsClient.contribSum pts d) else none := by
  induction pts generalizing m with
  | nil =>
    simp only [List.foldl_nil, EvsClient.contribSum, EvsClient.touches, List.filterMap_nil,
      List.sum_nil, List.any_nil]
    cases EvsClient.mapGet m d <;> simp
  | cons p pts ih =>
    rw [List.foldl_cons]
    cases hv : EvsClient.pointVal p with
    | none =>
      have hstep : EvsClient.byDateStep m p = m := by
        simp [EvsClient.byDateStep, hv]
      rw [hstep, ih]
      have hc : EvsClient.contribSum (p :: pts) d = EvsClient.contribSum pts d := by
        by_cases hd : p.date = d <;>
          simp [EvsClient.contribSum, List.filterMap_cons, hv, hd]
      have ht : EvsClient.touches (p :: pts) d = EvsClient.touches pts d := by
        simp [EvsClient.touches, hv]
      rw [hc, ht]
    | some v =>
      by_cases hd : p.date = d
      · have hstep : EvsClient.byDateStep m p =
            EvsClient.mapSet m d ((EvsClient.mapGet m d).getD 0 + |v|) := by
          simp [EvsClient.byDateStep, hv, hd]
        rw [hstep, ih, mapGet_mapSet_self]
        have hc : EvsClient.contribSum (p :: pts) d = |v| + EvsClient.contribSum pts d := by
          simp [EvsClient.contribSum, List.filterMap_cons, hv, hd]
        have ht : EvsClient.touches (p :: pts) d = true := by
          simp [EvsClient.touches, hv, hd]
        rw [hc, ht]
        cases hm : EvsClient.mapGet m d with
        | none => simp [add_assoc]
        | some x => simp [add_assoc]
      · have hstep : EvsClient.byDateStep m p =
            EvsClient.mapSet m p.date ((EvsClient.mapGet m p.date).getD 0 + |v|) := by
          simp [EvsClient.byDateStep, hv]
        rw [hstep, ih, mapGet_mapSet_other _ _ _ _ (fun hc => hd hc.symm)]
        have hc : EvsClient.contribSum (p :: pts) d = EvsClient.contribSum pts d := by
          simp [EvsClient.contribSum, List.filterMap_cons, hd]
        have ht : EvsClient.touches (p :: pts) d = EvsClient.touches pts d := by
          simp [EvsClient.touches, hd]
        rw [hc, ht]

theorem mapGet_buildByDate_getD (pts : List EvsClient.HistoryPoint) (d : Int) :
    (EvsClient.mapGet (EvsClient.buildByDate pts) d).getD 0 =
      EvsClient.contribSum pts d := by
  unfold EvsClient.buildByDate
  rw [mapGet_foldl_byDate]
  show ((if EvsClient.touches pts d then some (EvsClient.contribSum pts d)
    else none).getD 0) = EvsClient.contribSum pts d
  cases ht : EvsClient.touches pts d with
  | true => rfl
  | false => simpa using (contribSum_of_not_touches pts d ht).symm

theorem dailyFor_eq (byDate : List (Int × ℚ)) (n : Nat) (d : Int) :
    EvsClient.dailyFor byDate n d =
      (List.range n).map
        (fun (i : Nat) =>
          (d + (i : Int), (EvsClient.mapGet byDate (d + (i : Int))).getD 0)) := by
  induction n generalizing d with
  | zero => rfl
  | succ n ih =>
    rw [List.range_succ_eq_map]
    simp only [EvsClient.dailyFor, List.map_cons, List.map_map]
    congr 1
    · simp
    · rw [ih (d + 1)]
      apply List.map_congr_left
      intro i _
      have harg : (d + 1) + (i : Int) = d + ((Nat.succ i : Nat) : Int) := by
        push_cast
        ring
      simp only [Function.comp_apply]
      rw [harg]

/-- C10: for a non-legacy user and `lookbackDays ≥ 1`, `getDailyUsage`
returns a `daily` array with exactly one entry per calendar date from the
window start (`today - lookbackDays`) through today, in ascending date order;
each entry's usage is the sum of the absolute values of that date's readings
(`diff ?? total`), hence `0` for dates with no fetched reading; and
`avgPerDay` divides the total by the full array length `lookbackDays + 1`,
counting missing days as zero — unlike `getTotalSpent`. -/
theorem c10_getDailyUsage (pts : List EvsClient.HistoryPoint) (today : Int)
    (lookbackDays : Nat) (h1 : 1 ≤ lookbackDays) :
    (EvsClient.getDailyUsage pts today lookbackDays).daily.map Prod.fst =
      (List.range (lookbackDays + 1)).map
        (fun (i : Nat) => today - lookbackDays + (i : Int)) ∧
    (EvsClient.getDailyUsage pts today lookbackDays).daily.length = lookbackDays + 1 ∧
    (∀ e ∈ (EvsClient.getDailyUsage pts today lookbackDays).daily,
      e.2 = EvsClient.contribSum pts e.1) ∧
    (EvsClient.getDailyUsage pts today lookbackDays).avgPerDay =
      ((EvsClient.getDailyUsage pts today lookbackDays).daily.map Prod.snd).sum /
        ((lookbackDays + 1 : Nat) : ℚ) := by
  have hL : max 1 lookbackDays = lookbackDays := Nat.max_eq_right h1
  have hd : (EvsClient.getDailyUsage pts today lookbackDays).daily =
      (List.range (lookbackDays + 1)).map
        (fun (i : Nat) => (today - lookbackDays + (i : Int),
          (EvsClient.mapGet (EvsClient.buildByDate pts)
            (today - lookbackDays + (i : Int))).getD 0)) := by
    simp only [EvsClient.getDailyUsage, hL]
    rw [dailyFor_eq]
  refine ⟨?_, ?_, ?_, ?_⟩
  · rw [hd, List.map_map]
    rfl
  · rw [hd]
    simp
  · intro e he
    rw [hd] at he
    rcases List.mem_map.mp he with ⟨i, _, rfl⟩
    exact mapGet_buildByDate_getD pts _
  · rw [hd]
    simp only [EvsClient.getDailyUsage, hL]
    rw [dailyFor_eq]
    have hpos : 0 < ((List.range (lookbackDays + 1)).map
        (fun (i : Nat) => (today - lookbackDays + (i : Int),
          (EvsClient.mapGet (EvsClient.buildByDate pts)
            (today - lookbackDays + (i : Int))).getD 0))).length := by
      simp
    rw [if_pos hpos]
    simp

/-- C10 witness: with no fetched readings, `lookbackDays = 2` produces one
zero entry per date from two days ago through today, ascending. -/
theorem c10_getDailyUsage_witness :
    (EvsClient.getDailyUsage [] 0 2).daily.map Prod.fst = [-2, -1, 0] := by
  have h := (c10_getDailyUsage [] 0 2 (by decide)).1
  rw [h]
  decide
